import Mathlib

/-!
Verification development for the MeetingBurner transcription service.

The TypeScript source is shallowly embedded in Lean:
* audio samples are modelled as rationals (the float operations checked here
  are exact at float64 precision, so `ℚ` captures them faithfully);
* `Float32Array` / `Int16Array` become `List ℚ` / `List ℤ`;
* the mutable classes (`AudioBuffer`, `AssemblyAIStream`, `LiveKitBot`,
  `RoomManager`) become structures with explicit state passing;
* `await` boundaries in `RoomManager.startRoom` are modelled as explicit
  resume points (`StartPhase`), so that interleavings of concurrent
  invocations of the single-threaded event loop can be analysed;
* external collaborators (Supabase, AssemblyAI, LiveKit) are modelled by
  oracle parameters giving the outcome of each external call, plus
  instrumentation counters recording the externally visible calls.
-/

namespace MeetingBurner

/-! ## src/vad.ts -/

/-- The sum-of-squares accumulated by the loop in `calculateRMS`
(`sum += audio[i] * audio[i]`, src/vad.ts lines 18-21). -/
def sumSquares ( audio : List ℚ) : ℚ :=
  ( audio.map (fun x => x * x)).sum

/-- `calculateRMS` (src/vad.ts lines 15-24): returns 0 for empty input,
otherwise `Math.sqrt(sum / audio.length)`.  The square root lives in `ℝ`. -/
noncomputable def calculateRMS ( audio : List ℚ) : ℝ :=
  if audio.length = 0 then 0
  else Real.sqrt ((sumSquares audio : ℝ) / ( audio.length : ℝ))

/-- `detectVoiceActivity` (src/vad.ts lines 38-44): `rms > threshold`. -/
def detectVoiceActivity ( audio : List ℚ) (threshold : ℚ) : Prop :=
  calculateRMS audio > (threshold : ℝ)

/-- Executable form of `detectVoiceActivity`; proved equivalent to the
square-root formulation in `detectVoiceActivityB_iff` below. -/
def detectVoiceActivityB ( audio : List ℚ) (threshold : ℚ) : Bool :=
  if threshold < 0 then true
  else if audio.length = 0 then false
  else decide (threshold ^ 2 * ( audio.length : ℚ) < sumSquares audio)

/-- One sample of `float32ToInt16` (src/vad.ts lines 49-60): clamp to
`[-1, 1]`, scale negatives by `0x8000` and non-negatives by `0x7FFF`, then
coerce to a 16-bit integer.  The JavaScript `Int16Array` store truncates
toward zero, which is `⌈·⌉` on the negative branch and `⌊·⌋` on the
non-negative branch.  Both products are exact in float64 arithmetic, so the
rational model is exact. -/
def float32ToInt16Sample (x : ℚ) : ℤ :=
  let s := max (-1) (min 1 x)
  if s < 0 then ⌈s * 0x8000⌉ else ⌊s * 0x7FFF⌋

/-- `float32ToInt16` applied to a whole chunk. -/
def float32ToInt16 (float32Array : List ℚ) : List ℤ :=
  float32Array.map float32ToInt16Sample

/-- The state of an `AudioBuffer` (src/vad.ts lines 65-122): `data` is the
content of `buffer[0 .. writeIndex)`, i.e. the retained partial samples
(`writeIndex = data.length`); positions past the write cursor are never
read before being overwritten, so they are not modelled. -/
structure AudioBuffer (α : Type) where
  chunkSize : ℕ
  data : List α

/-- `new AudioBuffer(chunkSize)`: empty buffer. -/
def AudioBuffer.new {α : Type} (chunkSize : ℕ) : AudioBuffer α :=
  { chunkSize := chunkSize, data := [] }

/-- The `while (sampleIndex < samples.length)` loop of `addSamples`
(src/vad.ts lines 82-98).  Each iteration copies
`toCopy = min(chunkSize - writeIndex, samples.length - sampleIndex)`
samples into the buffer and emits a chunk whenever the buffer fills.
The loop is embedded with a fuel parameter; one unit of fuel per loop
iteration.  When `0 < chunkSize` every iteration consumes at least one
sample, so `fuel = samples.length` is always sufficient (the source loop
diverges when `chunkSize = 0`, which the fuel cutoff mirrors). -/
def addSamplesLoop {α : Type} (chunkSize : ℕ) :
    ℕ → List α → List α → List (List α) × List α
  | 0, acc, _ => ([], acc)
  | _ + 1, acc, [] => ([], acc)
  | fuel + 1, acc, x :: xs =>
    let samples := x :: xs
    let toCopy := min (chunkSize - acc.length) samples.length
    let acc2 := acc ++ samples.take toCopy
    let rest := samples.drop toCopy
    if chunkSize ≤ acc2.length then
      let r := addSamplesLoop chunkSize fuel [] rest
      (acc2 :: r.1, r.2)
    else
      addSamplesLoop chunkSize fuel acc2 rest

/-- `AudioBuffer.addSamples` (src/vad.ts lines 78-101): returns the list of
emitted chunks together with the updated buffer. -/
def AudioBuffer.addSamples {α : Type} (b : AudioBuffer α) (samples : List α) :
    List (List α) × AudioBuffer α :=
  let r := addSamplesLoop b.chunkSize samples.length b.data samples
  (r.1, { chunkSize := b.chunkSize, data := r.2 })

/-- `AudioBuffer.flush` (src/vad.ts lines 106-114): `null` when the write
cursor is zero, otherwise the retained samples; the cursor is reset. -/
def AudioBuffer.flush {α : Type} (b : AudioBuffer α) :
    Option (List α) × AudioBuffer α :=
  if b.data.length = 0 then (none, b)
  else (some b.data, { chunkSize := b.chunkSize, data := [] })

/-- `AudioBuffer.reset` (src/vad.ts lines 119-121). -/
def AudioBuffer.reset {α : Type} (b : AudioBuffer α) : AudioBuffer α :=
  { chunkSize := b.chunkSize, data := [] }

/-- A finite sequence of `addSamples` calls on one buffer, collecting all
emitted chunks in order. -/
def runAddSamples {α : Type} :
    AudioBuffer α → List (List α) → List (List α) × AudioBuffer α
  | b, [] => ([], b)
  | b, samples :: calls =>
    let r := b.addSamples samples
    let r2 := runAddSamples r.2 calls
    (r.1 ++ r2.1, r2.2)

/-! ## src/assemblyai-stream.ts -/

/-- `BOT_IDENTITY` (src/livekit-bot.ts line 17). -/
def botIdentity : String := "transcription-bot"

/-- State of an `AssemblyAIStream` (src/assemblyai-stream.ts).  The
`transcriber` websocket itself is external; `isConnected` is the class
field of the same name, and `sent` is instrumentation recording every
chunk the stream forwarded via `transcriber.sendAudio`. -/
structure AssemblyAIStream where
  participantId : String
  participantName : String
  isConnected : Bool
  sent : List (List ℤ)

/-- `new AssemblyAIStream(participantId, participantName)`. -/
def AssemblyAIStream.new (participantId participantName : String) :
    AssemblyAIStream :=
  { participantId := participantId, participantName := participantName,
    isConnected := false, sent := [] }

/-- `AssemblyAIStream.isActive` (src/assemblyai-stream.ts lines 117-119). -/
def AssemblyAIStream.isActive (s : AssemblyAIStream) : Bool :=
  s.isConnected

/-- `AssemblyAIStream.connect` (src/assemblyai-stream.ts lines 45-95):
returns immediately when already connected; otherwise the external
handshake either succeeds (`outcome = true`, after which the `open` event
sets `isConnected`) or fails, in which case the `catch` block rethrows —
the failure is delivered to the caller as an `error` result. -/
def AssemblyAIStream.connect (s : AssemblyAIStream) (outcome : Bool) :
    Except Unit AssemblyAIStream :=
  if s.isConnected then Except.ok s
  else if outcome then
    Except.ok { s with isConnected := true }
  else Except.error ()

/-- `AssemblyAIStream.sendAudio` (src/assemblyai-stream.ts lines 101-112):
a no-op unless connected (and send errors are swallowed). -/
def AssemblyAIStream.sendAudio (s : AssemblyAIStream) (audioData : List ℤ) :
    AssemblyAIStream :=
  if s.isConnected then { s with sent := s.sent ++ [audioData] } else s

/-! ## src/livekit-bot.ts — participant audio pipeline -/

/-- `ParticipantHandler` (src/livekit-bot.ts lines 20-28).  The
`audioStreamAbort` controller belongs to the cancellation machinery, which
is outside the claims checked here. -/
structure ParticipantHandler where
  participantId : String
  participantName : String
  stream : AssemblyAIStream
  audioBuffer : AudioBuffer ℚ
  speechDurationMs : ℚ
  lastSpeechAt : ℤ

/-- The `for (const chunk of chunks)` loop of `processAudioFrame`
(src/livekit-bot.ts lines 317-343).  `env k` is the outcome of the `k`-th
AssemblyAI reconnect attempt made by this handler; the returned `ℕ` is the
index after processing, so `result.2 - k` counts reconnect attempts.
On a failed reconnect the source executes `return`, leaving the remaining
chunks of this frame unprocessed. -/
def processChunks (sampleRate : ℚ) (now : ℤ) (env : ℕ → Bool) :
    ParticipantHandler → List (List ℚ) → ℕ → ParticipantHandler × ℕ
  | handler, [], k => (handler, k)
  | handler, chunk :: rest, k =>
    if detectVoiceActivityB chunk (1 / 1000) then
      match (if handler.stream.isActive then (Except.ok handler.stream, k)
             else (handler.stream.connect (env k), k + 1)) with
      | (Except.error _, k2) => (handler, k2)
      | (Except.ok s, k2) =>
        processChunks sampleRate now env
          { handler with
              stream := s.sendAudio (float32ToInt16 chunk),
              speechDurationMs :=
                handler.speechDurationMs + (chunk.length : ℚ) / sampleRate * 1000,
              lastSpeechAt := now }
          rest k2
    else
      processChunks sampleRate now env handler rest k

/-- `LiveKitBot.processAudioFrame` (src/livekit-bot.ts lines 307-344):
convert the incoming `Int16Array` frame to floats (`audioData[i] / 32768`),
push the samples through the handler's `AudioBuffer`, then run the chunk
loop. -/
def processAudioFrame (env : ℕ → Bool) (handler : ParticipantHandler)
    (audioData : List ℤ) (sampleRate : ℚ) (now : ℤ) (k : ℕ) :
    ParticipantHandler × ℕ :=
  let float32 := audioData.map (fun i : ℤ => (i : ℚ) / 32768)
  let r := handler.audioBuffer.addSamples float32
  processChunks sampleRate now env
    { handler with audioBuffer := r.2 } r.1 k

/-- The per-room state of a `LiveKitBot` relevant to participant setup
(src/livekit-bot.ts lines 30-41). -/
structure BotState where
  roomId : String
  participants : List (String × ParticipantHandler)
  totalSpeechDurationMs : ℚ

/-- `LiveKitBot.handleParticipantJoined` (src/livekit-bot.ts lines 177-239):
skip the bot's own identity; create a stream; `await stream.connect()`
inside `try { ... } catch` — on connect failure the error is caught and
logged, no handler is registered, and the method completes normally.
The `Except` result type records whether any error escapes to the caller:
every branch returns `Except.ok`. -/
def handleParticipantJoined (bot : BotState) (pIdentity : String)
    (pName : Option String) (connectOutcome : Bool) : Except Unit BotState :=
  if pIdentity = botIdentity then Except.ok bot
  else
    let participantName := pName.getD pIdentity
    match (AssemblyAIStream.new pIdentity participantName).connect connectOutcome with
    | Except.error _ => Except.ok bot
    | Except.ok s =>
      Except.ok { bot with
        participants :=
          (bot.participants.eraseP (fun p => p.1 == pIdentity))
            ++ [(pIdentity,
                 { participantId := pIdentity,
                   participantName := participantName,
                   stream := s,
                   audioBuffer := AudioBuffer.new 4800,
                   speechDurationMs := 0,
                   lastSpeechAt := 0 })] }

/-! ## src/room-manager.ts -/

/-- `TranscriptionMode` (src/types.ts line 5). -/
inductive TranscriptionMode
  | off
  | postCall
  | live
deriving DecidableEq

/-- The record returned by `getRoomSettings` (src/supabase.ts). -/
structure RoomSettings where
  transcriptionMode : TranscriptionMode
  hostId : String
  skillsKitSessionId : Option String
deriving DecidableEq

/-- Session mode stored on an `ActiveRoom` (`'live' | 'post-call'`). -/
inductive SessionMode
  | live
  | postCall
deriving DecidableEq

/-- `ActiveRoom` (src/room-manager.ts lines 24-31); the bot object and the
start timestamp carry no information used by the claims. -/
structure ActiveRoom where
  roomId : String
  sessionId : String
  mode : SessionMode
  skillsKitSessionId : Option String
deriving DecidableEq

/-- The `RoomManager` registry state (src/room-manager.ts lines 33-36)
plus instrumentation counters for the externally visible calls:
`settingsFetches` counts `getRoomSettings` calls, `sessionsCreated` counts
accounting sessions successfully created by `createTranscriptionSession`,
`botsConstructed` counts `new LiveKitBot(...)`, `botJoins` counts
successful `bot.join()` completions, `botLeaves` counts `bot.leave()`
calls, and `sessionsCompleted` counts `completeTranscriptionSession`
calls. -/
structure RoomManagerState where
  activeRooms : List (String × ActiveRoom)
  joiningRooms : List String
  stoppingRooms : List String
  settingsFetches : ℕ
  sessionsCreated : ℕ
  botsConstructed : ℕ
  botJoins : ℕ
  botLeaves : ℕ
  sessionsCompleted : ℕ
deriving DecidableEq

/-- Outcomes of the external calls one `startRoom` invocation performs:
the settings row (or `null`), the accounting session id created by
`createTranscriptionSession` (or `null`), and whether `bot.join()`
succeeds. -/
structure StartEnv where
  settings : Option RoomSettings
  createdSessionId : Option String
  joinSucceeds : Bool

/-- The resume points of `RoomManager.startRoom` (src/room-manager.ts lines
100-186).  Between two points the code runs synchronously on the
single-threaded event loop, so each transition below is atomic; the
`await`s on `getRoomSettings`, `createTranscriptionSession` and
`bot.join()` are the only suspension points. -/
inductive StartPhase
  | start
  | awaitSettings
  | awaitCreate (mode : SessionMode) (skillsKit : Option String)
  | awaitJoin (mode : SessionMode) (skillsKit : Option String) (sessionId : String)
  | done (result : Bool)
deriving DecidableEq

/-- Whether a `startRoom` invocation has returned. -/
def StartPhase.isDone : StartPhase → Bool
  | .done _ => true
  | _ => false

/-- One atomic segment of `startRoom` for room `roomId`:
* from `start` (lines 100-117): the `activeRooms` check, the
  `joiningRooms` check, the `joiningRooms.add`, and the call to
  `getRoomSettings`, all before the first `await`;
* from `awaitSettings` (lines 117-135): null/`off` handling, mode
  computation, and the call to `createTranscriptionSession`;
* from `awaitCreate` (lines 135-165): null handling, bot construction and
  event wiring, and the call to `bot.join()`;
* from `awaitJoin` (lines 164-185): registration on success, cleanup
  (including best-effort `bot.leave()`) on failure. -/
def startRoomStep (roomId : String) (env : StartEnv) (g : RoomManagerState) :
    StartPhase → RoomManagerState × StartPhase
  | .start =>
    if (g.activeRooms.lookup roomId).isSome then (g, .done true)
    else if roomId ∈ g.joiningRooms then (g, .done true)
    else
      ({ g with joiningRooms := roomId :: g.joiningRooms,
                settingsFetches := g.settingsFetches + 1 },
       .awaitSettings)
  | .awaitSettings =>
    match env.settings with
    | none =>
      ({ g with joiningRooms := g.joiningRooms.erase roomId }, .done false)
    | some st =>
      if st.transcriptionMode = TranscriptionMode.off then
        ({ g with joiningRooms := g.joiningRooms.erase roomId }, .done false)
      else
        let mode := if st.transcriptionMode = TranscriptionMode.postCall
                    then SessionMode.postCall else SessionMode.live
        ({ g with sessionsCreated :=
             g.sessionsCreated + (if env.createdSessionId.isSome then 1 else 0) },
         .awaitCreate mode st.skillsKitSessionId)
  | .awaitCreate mode sk =>
    match env.createdSessionId with
    | none =>
      ({ g with joiningRooms := g.joiningRooms.erase roomId }, .done false)
    | some sid =>
      ({ g with botsConstructed := g.botsConstructed + 1,
                botJoins := g.botJoins + (if env.joinSucceeds then 1 else 0) },
       .awaitJoin mode sk sid)
  | .awaitJoin mode sk sid =>
    if env.joinSucceeds then
      ({ g with
           activeRooms :=
             (roomId, { roomId := roomId, sessionId := sid, mode := mode,
                        skillsKitSessionId := sk }) :: g.activeRooms,
           joiningRooms := g.joiningRooms.erase roomId },
       .done true)
    else
      ({ g with joiningRooms := g.joiningRooms.erase roomId,
                botLeaves := g.botLeaves + 1 },
       .done false)
  | .done b => (g, .done b)

/-- Iterate `startRoomStep` for `n` segments (a full run needs 4; stepping
a `done` phase is the identity). -/
def stepUntilDone (roomId : String) (env : StartEnv) :
    ℕ → RoomManagerState → StartPhase → RoomManagerState × StartPhase
  | 0, g, p => (g, p)
  | n + 1, g, p =>
    let r := startRoomStep roomId env g p
    stepUntilDone roomId env n r.1 r.2

/-- A complete `startRoom(roomId)` invocation run to completion with no
interleaving (four atomic segments), returning the final registry state
and the boolean result. -/
def startRoomRun (roomId : String) (env : StartEnv) (g : RoomManagerState) :
    RoomManagerState × Bool :=
  let r1 := startRoomStep roomId env g .start
  let r2 := startRoomStep roomId env r1.1 r1.2
  let r3 := startRoomStep roomId env r2.1 r2.2
  let r4 := startRoomStep roomId env r3.1 r3.2
  (r4.1, match r4.2 with
         | .done b => b
         | _ => false)

/-- Interleave two `startRoom(roomId)` invocations: the schedule picks
which invocation runs its next atomic segment (`true` = first). -/
def runTwoStarts (roomId : String) (env1 env2 : StartEnv) :
    List Bool → RoomManagerState → StartPhase → StartPhase →
    RoomManagerState × StartPhase × StartPhase
  | [], g, p1, p2 => (g, p1, p2)
  | true :: sch, g, p1, p2 =>
    let r := startRoomStep roomId env1 g p1
    runTwoStarts roomId env1 env2 sch r.1 r.2 p2
  | false :: sch, g, p1, p2 =>
    let r := startRoomStep roomId env2 g p2
    runTwoStarts roomId env1 env2 sch r.1 p1 r.2

/-- `RoomManager.stopRoom` (src/room-manager.ts lines 191-215) run to
completion: no-op without an active session or when a stop is already in
flight; otherwise removes the session, awaits `bot.leave()`, completes the
accounting session and releases the channel (the `stoppingRooms` mark is
added and removed again by the `finally`, so its net effect is none). -/
def stopRoomRun (roomId : String) (g : RoomManagerState) : RoomManagerState :=
  match g.activeRooms.lookup roomId with
  | none => g
  | some _ =>
    if roomId ∈ g.stoppingRooms then g
    else
      { g with activeRooms := g.activeRooms.eraseP (fun p => p.1 == roomId),
               botLeaves := g.botLeaves + 1,
               sessionsCompleted := g.sessionsCompleted + 1 }

/-- The bot `disconnected` listener installed by `startRoom`
(src/room-manager.ts lines 154-162): call `stopRoom` only when the room is
registered in `activeRooms`, otherwise ignore the event.  The boolean
records whether `stopRoom` was invoked. -/
def onBotDisconnected (roomId : String) (g : RoomManagerState) :
    RoomManagerState × Bool :=
  if (g.activeRooms.lookup roomId).isSome then (stopRoomRun roomId g, true)
  else (g, false)

/-! ## Proof-support definitions -/

/-- An environment in which all three external calls of `startRoom`
succeed and transcription is enabled. -/
def goodEnv (env : StartEnv) : Prop :=
  (∃ st, env.settings = some st
      ∧ st.transcriptionMode ≠ TranscriptionMode.off)
  ∧ env.createdSessionId.isSome = true
  ∧ env.joinSucceeds = true

/-- Mid-execution phases of `startRoom` (between the mark-as-joining step
and the final resume). -/
def StartPhase.isMid : StartPhase → Bool
  | .awaitSettings => true
  | .awaitCreate _ _ => true
  | .awaitJoin _ _ _ => true
  | _ => false

/-- Accounting sessions created so far by an invocation at this phase
(successful environment). -/
def StartPhase.sessDelta : StartPhase → ℕ
  | .awaitCreate _ _ => 1
  | .awaitJoin _ _ _ => 1
  | _ => 0

/-- Bot joins performed so far by an invocation at this phase (successful
environment). -/
def StartPhase.joinDelta : StartPhase → ℕ
  | .awaitJoin _ _ _ => 1
  | _ => 0

/-- A concurrent invocation that either has not begun or returned `true`
without side effects. -/
def bystander (p : StartPhase) : Prop :=
  p = StartPhase.start ∨ p = StartPhase.done true

/-- The invocation that owns the join: it is mid-execution, holds the
joining mark, and has performed exactly the external calls its phase
implies. -/
def ownerMid (roomId : String) (g0 g : RoomManagerState) (p : StartPhase) : Prop :=
  p.isMid = true
  ∧ g.activeRooms = g0.activeRooms
  ∧ roomId ∈ g.joiningRooms
  ∧ g.sessionsCreated = g0.sessionsCreated + p.sessDelta
  ∧ g.botJoins = g0.botJoins + p.joinDelta

/-- The owning invocation has completed the full path: the session is
registered and exactly one accounting session and one bot join happened. -/
def ownerDone (roomId : String) (g0 g : RoomManagerState) (p : StartPhase) : Prop :=
  p = StartPhase.done true
  ∧ (g.activeRooms.lookup roomId).isSome = true
  ∧ g.sessionsCreated = g0.sessionsCreated + 1
  ∧ g.botJoins = g0.botJoins + 1

/-- Invariant of the two-invocation system for a previously unseen room
with successful environments. -/
def twoStartInv (roomId : String) (g0 g : RoomManagerState)
    (p1 p2 : StartPhase) : Prop :=
  (p1 = StartPhase.start ∧ p2 = StartPhase.start ∧ g = g0)
  ∨ (ownerMid roomId g0 g p1 ∧ bystander p2)
  ∨ (ownerMid roomId g0 g p2 ∧ bystander p1)
  ∨ (ownerDone roomId g0 g p1 ∧ bystander p2)
  ∨ (ownerDone roomId g0 g p2 ∧ bystander p1)

/-! ## Witness fixtures (concrete inputs used by witness theorems) -/

/-- A reconnect-outcome oracle whose first attempt fails and whose later
attempts succeed. -/
def envSecondTry : ℕ → Bool := fun n => decide (1 ≤ n)

/-- A reconnect-outcome oracle that always fails. -/
def envNever : ℕ → Bool := fun _ => false

/-- A handler whose adapter is connected, with an empty two-sample buffer. -/
def connectedHandler : ParticipantHandler :=
  { participantId := "p1", participantName := "P One",
    stream := { participantId := "p1", participantName := "P One",
                isConnected := true, sent := [] },
    audioBuffer := AudioBuffer.new 1,
    speechDurationMs := 0, lastSpeechAt := 0 }

/-- A handler whose adapter has been closed (idle timeout). -/
def idleHandler : ParticipantHandler :=
  { participantId := "p1", participantName := "P One",
    stream := { participantId := "p1", participantName := "P One",
                isConnected := false, sent := [] },
    audioBuffer := AudioBuffer.new 1,
    speechDurationMs := 0, lastSpeechAt := 0 }

/-- An empty registry. -/
def emptyRegistry : RoomManagerState :=
  { activeRooms := [], joiningRooms := [], stoppingRooms := [],
    settingsFetches := 0, sessionsCreated := 0, botsConstructed := 0,
    botJoins := 0, botLeaves := 0, sessionsCompleted := 0 }

/-- A fully successful external environment for `startRoom`. -/
def happyEnv : StartEnv :=
  { settings := some { transcriptionMode := TranscriptionMode.live,
                       hostId := "host", skillsKitSessionId := none },
    createdSessionId := some "sess-1", joinSucceeds := true }

/-- An environment whose settings report transcription mode `off`. -/
def offEnv : StartEnv :=
  { settings := some { transcriptionMode := TranscriptionMode.off,
                       hostId := "host", skillsKitSessionId := none },
    createdSessionId := none, joinSucceeds := false }

/-- A sample registered session record. -/
def sampleActiveRoom : ActiveRoom :=
  { roomId := "r1", sessionId := "sess-1", mode := SessionMode.live,
    skillsKitSessionId := none }

/-- A registry with one registered session for room `"r1"`. -/
def activeRegistry : RoomManagerState :=
  { activeRooms := [("r1", sampleActiveRoom)], joiningRooms := [],
    stoppingRooms := [], settingsFetches := 0, sessionsCreated := 0,
    botsConstructed := 0, botJoins := 0, botLeaves := 0,
    sessionsCompleted := 0 }

/-! ## Theorems: the Voice Activity Gate buffer (C1, C10) -/

theorem addSamplesLoop_spec {α : Type} (chunkSize : ℕ) (hC : 0 < chunkSize) :
    ∀ (fuel : ℕ) (acc samples : List α), acc.length < chunkSize →
      samples.length ≤ fuel →
      (addSamplesLoop chunkSize fuel acc samples).1.flatten
          ++ (addSamplesLoop chunkSize fuel acc samples).2 = acc ++ samples
      ∧ (∀ c ∈ (addSamplesLoop chunkSize fuel acc samples).1, c.length = chunkSize)
      ∧ (addSamplesLoop chunkSize fuel acc samples).2.length < chunkSize := by
  intro fuel
  induction fuel with
  | zero =>
    intro acc samples hacc hlen
    have hs : samples = [] := List.eq_nil_of_length_eq_zero (Nat.le_zero.mp hlen)
    subst hs
    simp [addSamplesLoop, hacc]
  | succ fuel ih =>
    intro acc samples hacc hlen
    cases samples with
    | nil => simp [addSamplesLoop, hacc]
    | cons x xs =>
      have htc1 : 1 ≤ min (chunkSize - acc.length) (x :: xs).length := by
        refine le_min (by omega) (by simp)
      have htcS : min (chunkSize - acc.length) (x :: xs).length ≤ (x :: xs).length :=
        min_le_right _ _
      have htcC : min (chunkSize - acc.length) (x :: xs).length ≤ chunkSize - acc.length :=
        min_le_left _ _
      have hresl : ((x :: xs).drop (min (chunkSize - acc.length) (x :: xs).length)).length ≤ fuel := by
        rw [List.length_drop]
        have := hlen
        simp only [List.length_cons] at this ⊢
        omega
      have hacc2len :
          (acc ++ (x :: xs).take (min (chunkSize - acc.length) (x :: xs).length)).length
            = acc.length + min (chunkSize - acc.length) (x :: xs).length := by
        rw [List.length_append, List.length_take, Nat.min_eq_left htcS]
      simp only [addSamplesLoop]
      by_cases hfull : chunkSize ≤
          (acc ++ (x :: xs).take (min (chunkSize - acc.length) (x :: xs).length)).length
      · obtain ⟨ih1, ih2, ih3⟩ :=
          ih [] ((x :: xs).drop (min (chunkSize - acc.length) (x :: xs).length))
            (by simpa using hC) hresl
        rw [if_pos hfull]
        refine ⟨?_, ?_, ih3⟩
        · simp only [List.flatten_cons, List.append_assoc, ih1]
          simp [List.take_append_drop]
        · intro c hc
          rcases List.mem_cons.mp hc with hc | hc
          · subst hc; omega
          · exact ih2 c hc
      · have hacc2lt :
            (acc ++ (x :: xs).take (min (chunkSize - acc.length) (x :: xs).length)).length
              < chunkSize := by omega
        obtain ⟨ih1, ih2, ih3⟩ :=
          ih (acc ++ (x :: xs).take (min (chunkSize - acc.length) (x :: xs).length))
            ((x :: xs).drop (min (chunkSize - acc.length) (x :: xs).length)) hacc2lt hresl
        rw [if_neg hfull]
        refine ⟨?_, ih2, ih3⟩
        rw [ih1]
        simp [List.append_assoc, List.take_append_drop]

theorem length_join_of_forall_length {α : Type} {C : ℕ} :
    ∀ {L : List (List α)}, (∀ c ∈ L, c.length = C) → L.flatten.length = C * L.length := by
  intro L
  induction L with
  | nil => simp
  | cons a L ih =>
    intro h
    have ha : a.length = C := h a (List.mem_cons_self _ _)
    have hL := ih (fun c hc => h c (List.mem_cons_of_mem _ hc))
    simp only [List.flatten_cons, List.length_append, List.length_cons, ha, hL]
    ring

theorem runAddSamples_spec {α : Type} :
    ∀ (calls : List (List α)) (b : AudioBuffer α),
      0 < b.chunkSize → b.data.length < b.chunkSize →
      ((runAddSamples b calls).1.flatten ++ (runAddSamples b calls).2.data
          = b.data ++ calls.flatten)
      ∧ (∀ c ∈ (runAddSamples b calls).1, c.length = b.chunkSize)
      ∧ (runAddSamples b calls).2.data.length < b.chunkSize
      ∧ (runAddSamples b calls).2.chunkSize = b.chunkSize := by
  intro calls
  induction calls with
  | nil =>
    intro b hC hlt
    simp [runAddSamples, hlt]
  | cons s calls ih =>
    intro b hC hlt
    obtain ⟨h1, h2, h3⟩ := addSamplesLoop_spec b.chunkSize hC s.length b.data s hlt le_rfl
    obtain ⟨ih1, ih2, ih3, ih4⟩ :=
      ih ⟨b.chunkSize, (addSamplesLoop b.chunkSize s.length b.data s).2⟩ hC h3
    simp only [runAddSamples, AudioBuffer.addSamples] at *
    refine ⟨?_, ?_, ih3, ih4⟩
    · simp only [List.flatten_append, List.flatten_cons, List.append_assoc]
      rw [ih1]
      rw [← List.append_assoc, h1, List.append_assoc]
    · intro c hc
      rcases List.mem_append.mp hc with hc | hc
      · exact h2 c hc
      · exact ih2 c hc

theorem chunks_characterization {α : Type} {C : ℕ} (hC : 0 < C)
    {chunksL : List (List α)} {rest full : List α}
    (hjoin : chunksL.flatten ++ rest = full)
    (hlen : ∀ c ∈ chunksL, c.length = C) (hrest : rest.length < C) :
    chunksL.length = full.length / C
    ∧ chunksL.map List.length = List.replicate (full.length / C) C
    ∧ chunksL.flatten = full.take (full.length / C * C)
    ∧ rest = full.drop (full.length / C * C)
    ∧ rest.length = full.length % C := by
  have hjl : chunksL.flatten.length = C * chunksL.length := length_join_of_forall_length hlen
  have hfl : full.length = C * chunksL.length + rest.length := by
    rw [← hjoin]; simp [hjl]
  have hdiv : full.length / C = chunksL.length := by
    rw [hfl, Nat.mul_add_div hC, Nat.div_eq_of_lt hrest, Nat.add_zero]
  have hmul : full.length / C * C = chunksL.flatten.length := by
    rw [hdiv, hjl, Nat.mul_comm]
  refine ⟨hdiv.symm, ?_, ?_, ?_, ?_⟩
  · refine List.eq_replicate_iff.mpr ⟨by simp [hdiv], ?_⟩
    intro n hn
    obtain ⟨c, hc, rfl⟩ := List.mem_map.mp hn
    exact hlen c hc
  · rw [hmul, ← hjoin, List.take_left]
  · rw [hmul, ← hjoin, List.drop_left]
  · rw [hfl, Nat.mul_add_mod, Nat.mod_eq_of_lt hrest]

/-- C1: for every chunk size `C > 0` and every finite sequence of
`addSamples` calls on one `AudioBuffer`, the cumulative number of emitted
chunks is `⌊total / C⌋`, every emitted chunk has length exactly `C`, the
concatenation of the emitted chunks is exactly the first `⌊total / C⌋ * C`
input samples in arrival order (no duplication, loss or reordering), and
the remaining `total % C` samples are retained in the buffer (where `flush`
finds them). -/
theorem audioBuffer_chunking {α : Type} (C : ℕ) (hC : 0 < C) (calls : List (List α)) :
    (runAddSamples (AudioBuffer.new C) calls).1.length = calls.flatten.length / C
    ∧ (runAddSamples (AudioBuffer.new C) calls).1.map List.length
        = List.replicate (calls.flatten.length / C) C
    ∧ (runAddSamples (AudioBuffer.new C) calls).1.flatten
        = calls.flatten.take (calls.flatten.length / C * C)
    ∧ (runAddSamples (AudioBuffer.new C) calls).2.data
        = calls.flatten.drop (calls.flatten.length / C * C)
    ∧ (runAddSamples (AudioBuffer.new C) calls).2.data.length = calls.flatten.length % C := by
  obtain ⟨h1, h2, h3, h4⟩ :=
    runAddSamples_spec calls (AudioBuffer.new C) (by simpa [AudioBuffer.new] using hC)
      (by simp [AudioBuffer.new]; omega)
  rw [show (AudioBuffer.new C : AudioBuffer α).data = [] from rfl] at h1
  rw [show (AudioBuffer.new C : AudioBuffer α).chunkSize = C from rfl] at h2 h3
  simp only [List.nil_append] at h1
  obtain ⟨g1, g2, g3, g4, g5⟩ := chunks_characterization hC h1 h2 h3
  exact ⟨g1, g2, g3, g4, g5⟩

/-- Witness for C1 at `C = 2` and the single call `[0, 1, 2]`: one chunk
`[0, 1]` is emitted and `[2]` is retained. -/
theorem audioBuffer_chunking_witness :
    0 < 2
    ∧ ((runAddSamples (AudioBuffer.new 2) [[0, 1, 2]]).1.length
          = ([[0, 1, 2]] : List (List ℕ)).flatten.length / 2
        ∧ (runAddSamples (AudioBuffer.new 2) [[0, 1, 2]]).1.map List.length
            = List.replicate (([[0, 1, 2]] : List (List ℕ)).flatten.length / 2) 2
        ∧ (runAddSamples (AudioBuffer.new 2) [[0, 1, 2]]).1.flatten
            = ([[0, 1, 2]] : List (List ℕ)).flatten.take
                (([[0, 1, 2]] : List (List ℕ)).flatten.length / 2 * 2)
        ∧ (runAddSamples (AudioBuffer.new 2) [[0, 1, 2]]).2.data
            = ([[0, 1, 2]] : List (List ℕ)).flatten.drop
                (([[0, 1, 2]] : List (List ℕ)).flatten.length / 2 * 2)
        ∧ (runAddSamples (AudioBuffer.new 2) [[0, 1, 2]]).2.data.length
            = ([[0, 1, 2]] : List (List ℕ)).flatten.length % 2) :=
  ⟨by decide, audioBuffer_chunking 2 (by decide) [[0, 1, 2]]⟩

/-- C10: `flush` returns `null` iff no partial samples are retained (the
write cursor is zero); otherwise it returns exactly the retained samples in
arrival order and empties the buffer, so a second consecutive `flush`
always returns `null`. -/
theorem audioBuffer_flush_spec {α : Type} (b : AudioBuffer α) :
    (b.flush.1 = none ↔ b.data = [])
    ∧ (b.data ≠ [] → b.flush.1 = some b.data)
    ∧ b.flush.2.data = []
    ∧ (b.flush.2.flush).1 = none
    ∧ b.flush.2.chunkSize = b.chunkSize := by
  by_cases h : b.data.length = 0
  · have hd : b.data = [] := List.eq_nil_of_length_eq_zero h
    simp [AudioBuffer.flush, h, hd]
  · have hd : ¬ b.data = [] := fun hh => h (by simp [hh])
    simp [AudioBuffer.flush, h, hd]

/-- Witness for C10 on the buffer `⟨chunkSize 2, data [5]⟩`. -/
theorem audioBuffer_flush_spec_witness :
    (AudioBuffer.mk 2 [5] : AudioBuffer ℕ).flush.1 = some [5]
    ∧ ((AudioBuffer.mk 2 [5] : AudioBuffer ℕ).flush.2.flush).1 = none :=
  ⟨(audioBuffer_flush_spec (AudioBuffer.mk 2 [5])).2.1 (by decide),
   (audioBuffer_flush_spec (AudioBuffer.mk 2 [5])).2.2.2.1⟩

/-! ## Theorems: RMS classification (C6) and PCM conversion (C5) -/

theorem sumSquares_cons (x : ℚ) (l : List ℚ) :
    sumSquares (x :: l) = x * x + sumSquares l := by
  simp [sumSquares]

theorem sumSquares_map_mul (k : ℚ) :
    ∀ l : List ℚ, sumSquares (l.map (fun x => k * x)) = k ^ 2 * sumSquares l := by
  intro l
  induction l with
  | nil => simp [sumSquares]
  | cons x xs ih =>
    rw [List.map_cons, sumSquares_cons, sumSquares_cons, ih]
    ring

theorem calculateRMS_nonneg ( audio : List ℚ) : 0 ≤ calculateRMS audio := by
  unfold calculateRMS
  split
  · exact le_refl 0
  · exact Real.sqrt_nonneg _

theorem calculateRMS_map_mul (k : ℚ) (hk : 0 ≤ k) (l : List ℚ) :
    calculateRMS (l.map (fun x => k * x)) = (k : ℝ) * calculateRMS l := by
  unfold calculateRMS
  rw [List.length_map]
  by_cases h : l.length = 0
  · simp [h]
  · rw [if_neg h, if_neg h, sumSquares_map_mul]
    push_cast
    rw [show ((k : ℝ) ^ 2 * (sumSquares l : ℝ)) / (l.length : ℝ)
          = (k : ℝ) ^ 2 * ((sumSquares l : ℝ) / (l.length : ℝ)) from by ring]
    rw [Real.sqrt_mul (by positivity), Real.sqrt_sq (by exact_mod_cast hk)]

theorem detectVoiceActivityB_iff ( audio : List ℚ) (threshold : ℚ) :
    detectVoiceActivityB audio threshold = true
      ↔ detectVoiceActivity audio threshold := by
  by_cases ht : threshold < 0
  · refine iff_of_true ?_ ?_
    · simp [detectVoiceActivityB, ht]
    · have ht' : (threshold : ℝ) < 0 := by exact_mod_cast ht
      exact lt_of_lt_of_le ht' (calculateRMS_nonneg audio)
  · by_cases hlen : audio.length = 0
    · refine iff_of_false ?_ ?_
      · simp [detectVoiceActivityB, ht, hlen]
      · have ht' : (0 : ℝ) ≤ (threshold : ℝ) := by exact_mod_cast not_lt.mp ht
        have : calculateRMS audio = 0 := by simp [calculateRMS, hlen]
        rw [detectVoiceActivity, this]
        exact not_lt.mpr ht'
    · have ht0 : (0 : ℝ) ≤ (threshold : ℝ) := by exact_mod_cast not_lt.mp ht
      have hlenpos : (0 : ℝ) < ( audio.length : ℝ) := by
        exact_mod_cast Nat.pos_of_ne_zero hlen
      rw [detectVoiceActivityB, if_neg ht, if_neg hlen, decide_eq_true_iff]
      rw [detectVoiceActivity, gt_iff_lt,
        show calculateRMS audio
          = Real.sqrt ((sumSquares audio : ℝ) / ( audio.length : ℝ)) from if_neg hlen]
      rw [Real.lt_sqrt ht0, lt_div_iff hlenpos]
      exact_mod_cast Iff.rfl

/-- C6: amplifying a chunk by any factor `k ≥ 1` never turns a speech
classification into silence: if the RMS of the chunk strictly exceeds the
threshold, so does the RMS of the scaled chunk. -/
theorem detectVoiceActivity_scale_monotone ( audio : List ℚ) (threshold k : ℚ)
    (hk : 1 ≤ k) (h : detectVoiceActivity audio threshold) :
    detectVoiceActivity ( audio.map (fun x => k * x)) threshold := by
  rw [detectVoiceActivity] at h ⊢
  rw [calculateRMS_map_mul k (by linarith) audio]
  have h0 : 0 ≤ calculateRMS audio := calculateRMS_nonneg audio
  have hk' : (1 : ℝ) ≤ (k : ℝ) := by exact_mod_cast hk
  calc (threshold : ℝ) < calculateRMS audio := h
    _ ≤ (k : ℝ) * calculateRMS audio := le_mul_of_one_le_left h0 hk'

/-- Witness for C6: `[1]` is classified as speech at threshold `1/2`, and
so is its doubling. -/
theorem detectVoiceActivity_scale_monotone_witness :
    (1 : ℚ) ≤ 2 ∧ detectVoiceActivity (([1] : List ℚ).map (fun x => (2 : ℚ) * x)) (1 / 2) :=
  ⟨by norm_num,
   detectVoiceActivity_scale_monotone [1] (1 / 2) 2 (by norm_num)
     (by
       have h1 : calculateRMS [1] = 1 := by
         unfold calculateRMS
         rw [if_neg (by norm_num)]
         norm_num [sumSquares, Real.sqrt_one]
       rw [detectVoiceActivity, h1]
       norm_num)⟩

theorem float32ToInt16Sample_roundtrip (x : ℚ) (h1 : -1 ≤ x) (h2 : x ≤ 1) :
    |x - (float32ToInt16Sample x : ℚ) / 32768| < 2 / 32768 := by
  have hs : max (-1) (min 1 x) = x := by rw [min_eq_right h2, max_eq_right h1]
  simp only [float32ToInt16Sample]
  rw [hs]
  by_cases hx : x < 0
  · rw [if_pos hx]
    have hle : (x * 0x8000 : ℚ) ≤ ⌈x * 0x8000⌉ := Int.le_ceil _
    have hlt : ((⌈x * 0x8000⌉ : ℤ) : ℚ) < x * 0x8000 + 1 := Int.ceil_lt_add_one _
    rw [abs_sub_lt_iff]
    constructor <;> linarith
  · rw [if_neg hx]
    have h0 : (0 : ℚ) ≤ x := not_lt.mp hx
    have hle : ((⌊x * 0x7FFF⌋ : ℤ) : ℚ) ≤ x * 0x7FFF := Int.floor_le _
    have hlt : (x * 0x7FFF : ℚ) < ⌊x * 0x7FFF⌋ + 1 := Int.lt_floor_add_one _
    rw [abs_sub_lt_iff]
    constructor <;> linarith

theorem float32ToInt16Sample_range (x : ℚ) :
    -32768 ≤ float32ToInt16Sample x ∧ float32ToInt16Sample x ≤ 32767 := by
  have hs1 : (-1 : ℚ) ≤ max (-1) (min 1 x) := le_max_left _ _
  have hs2 : max (-1) (min 1 x) ≤ 1 := max_le (by norm_num) (min_le_left _ _)
  simp only [float32ToInt16Sample]
  by_cases hx : max (-1) (min 1 x) < 0
  · rw [if_pos hx]
    constructor
    · have hq : ((-32768 : ℤ) : ℚ) ≤ max (-1) (min 1 x) * 0x8000 := by
        push_cast; nlinarith
      have h := Int.ceil_mono hq
      rwa [Int.ceil_intCast] at h
    · have hq : max (-1) (min 1 x) * 0x8000 ≤ ((0 : ℤ) : ℚ) := by
        push_cast; nlinarith
      have h : ⌈max (-1) (min 1 x) * 0x8000⌉ ≤ (0 : ℤ) := Int.ceil_le.mpr hq
      omega
  · rw [if_neg hx]
    have h0 : (0 : ℚ) ≤ max (-1) (min 1 x) := not_lt.mp hx
    constructor
    · have h : (0 : ℤ) ≤ ⌊max (-1) (min 1 x) * 0x7FFF⌋ :=
        Int.le_floor.mpr (by push_cast; nlinarith)
      omega
    · have hq : max (-1) (min 1 x) * 0x7FFF ≤ ((32767 : ℤ) : ℚ) := by
        push_cast; nlinarith
      have h := Int.floor_mono hq
      rwa [Int.floor_intCast] at h

theorem zip_map_self {α β : Type} (g : α → β) :
    ∀ l : List α, l.zip (l.map g) = l.map (fun a => (a, g a))
  | [] => rfl
  | x :: xs => by simp [zip_map_self g xs]

theorem float32ToInt16Sample_in_range (x : ℚ) (h1 : -1 ≤ x) (h2 : x ≤ 1) :
    float32ToInt16Sample x
      = if x < 0 then ⌈x * 0x8000⌉ else ⌊x * 0x7FFF⌋ := by
  simp only [float32ToInt16Sample]
  rw [min_eq_right h2, max_eq_right h1]

theorem float32ToInt16Sample_neg_one : float32ToInt16Sample (-1) = -32768 := by
  rw [float32ToInt16Sample_in_range (-1) (by norm_num) (by norm_num),
    if_pos (by norm_num : (-1 : ℚ) < 0),
    show ((-1 : ℚ) * 0x8000) = ((-32768 : ℤ) : ℚ) from by norm_num,
    Int.ceil_intCast]

theorem float32ToInt16Sample_zero : float32ToInt16Sample 0 = 0 := by
  rw [float32ToInt16Sample_in_range 0 (by norm_num) (by norm_num),
    if_neg (by norm_num : ¬ (0 : ℚ) < 0),
    show ((0 : ℚ) * 0x7FFF) = ((0 : ℤ) : ℚ) from by norm_num,
    Int.floor_intCast]

theorem float32ToInt16Sample_one : float32ToInt16Sample 1 = 32767 := by
  rw [float32ToInt16Sample_in_range 1 (by norm_num) (by norm_num),
    if_neg (by norm_num : ¬ (1 : ℚ) < 0),
    show ((1 : ℚ) * 0x7FFF) = ((32767 : ℤ) : ℚ) from by norm_num,
    Int.floor_intCast]

theorem float32ToInt16Sample_half : float32ToInt16Sample (1 / 2) = 16383 := by
  rw [float32ToInt16Sample_in_range (1 / 2) (by norm_num) (by norm_num),
    if_neg (by norm_num : ¬ (1 / 2 : ℚ) < 0)]
  rw [Int.floor_eq_iff]
  constructor <;> norm_num

theorem float32ToInt16Sample_nearly_one :
    float32ToInt16Sample (65533 / 65536) = 32765 := by
  rw [float32ToInt16Sample_in_range (65533 / 65536) (by norm_num) (by norm_num),
    if_neg (by norm_num : ¬ (65533 / 65536 : ℚ) < 0)]
  rw [Int.floor_eq_iff]
  constructor <;> norm_num

/-- C5 (amended): `float32ToInt16` clamps each sample to `[-1, 1]` and
scales with the asymmetric factor (`0x8000` negative, `0x7FFF`
non-negative); `-1.0`, `0.0`, `1.0` map exactly to `-32768`, `0`, `32767`;
no input overflows the signed 16-bit range; and converting a chunk of
samples in `[-1, 1]` to integer PCM and back (dividing by `32768`, as the
frame-ingest conversion does) reproduces each sample to within **two**
quantization steps (`2/32768`).  The original claim's bound of one
quantization step fails — see the counterexample theorem. -/
theorem float32ToInt16_spec :
    (float32ToInt16Sample (-1) = -32768
      ∧ float32ToInt16Sample 0 = 0
      ∧ float32ToInt16Sample 1 = 32767)
    ∧ (∀ x : ℚ, -32768 ≤ float32ToInt16Sample x ∧ float32ToInt16Sample x ≤ 32767)
    ∧ (∀ x : ℚ, float32ToInt16Sample x = float32ToInt16Sample (max (-1) (min 1 x)))
    ∧ (∀ chunk : List ℚ, (∀ x ∈ chunk, -1 ≤ x ∧ x ≤ 1) →
        ∀ p ∈ chunk.zip ((float32ToInt16 chunk).map (fun i : ℤ => (i : ℚ) / 32768)),
          |p.1 - p.2| < 2 / 32768) := by
  refine ⟨⟨float32ToInt16Sample_neg_one, float32ToInt16Sample_zero,
      float32ToInt16Sample_one⟩, float32ToInt16Sample_range, ?_, ?_⟩
  · intro x
    have hc1 : (-1 : ℚ) ≤ max (-1) (min 1 x) := le_max_left _ _
    have hc2 : max (-1) (min 1 x) ≤ 1 := max_le (by norm_num) (min_le_left _ _)
    simp only [float32ToInt16Sample]
    rw [min_eq_right hc2, max_eq_right hc1]
  · intro chunk hchunk p hp
    rw [float32ToInt16, List.map_map, zip_map_self] at hp
    obtain ⟨x, hx, rfl⟩ := List.mem_map.mp hp
    exact float32ToInt16Sample_roundtrip x (hchunk x hx).1 (hchunk x hx).2

/-- Witness for C5 at the sample `1/2` (chunk `[1/2]`), whose PCM value is
`⌊0.5 * 32767⌋ = 16383`. -/
theorem float32ToInt16_spec_witness :
    float32ToInt16Sample 1 = 32767
    ∧ (-32768 ≤ float32ToInt16Sample (1 / 2) ∧ float32ToInt16Sample (1 / 2) ≤ 32767)
    ∧ float32ToInt16Sample 2 = float32ToInt16Sample (max (-1) (min 1 2))
    ∧ |(1 / 2 : ℚ) - ((16383 : ℤ) : ℚ) / 32768| < 2 / 32768 :=
  ⟨float32ToInt16_spec.1.2.2,
   float32ToInt16_spec.2.1 (1 / 2),
   float32ToInt16_spec.2.2.1 2,
   float32ToInt16_spec.2.2.2 [1 / 2] (by norm_num)
     ((1 / 2 : ℚ), ((16383 : ℤ) : ℚ) / 32768)
     (by
       have hmap : float32ToInt16 [1 / 2] = [(16383 : ℤ)] := by
         rw [float32ToInt16, List.map_cons, List.map_nil, float32ToInt16Sample_half]
       rw [hmap, List.map_cons, List.map_nil]
       simp)⟩

/-- C5 counterexample: at the float32-representable sample
`x = 65533/65536 ∈ [-1, 1]` the PCM round trip errs by `3/65536`, which
exceeds one quantization step whether the step is read as `1/32768` or as
`1/32767`.  Hence the round trip is **not** within one quantization step. -/
theorem float32ToInt16_roundtrip_counterexample :
    ((-1 : ℚ) ≤ 65533 / 65536 ∧ (65533 : ℚ) / 65536 ≤ 1)
    ∧ float32ToInt16Sample (65533 / 65536) = 32765
    ∧ |(65533 : ℚ) / 65536 - (float32ToInt16Sample (65533 / 65536) : ℚ) / 32768|
        = 3 / 65536
    ∧ (1 : ℚ) / 32768 < 3 / 65536
    ∧ (1 : ℚ) / 32767 < 3 / 65536 := by
  refine ⟨⟨by norm_num, by norm_num⟩, float32ToInt16Sample_nearly_one, ?_,
    by norm_num, by norm_num⟩
  rw [float32ToInt16Sample_nearly_one]
  rw [abs_of_nonneg (by norm_num)]
  norm_num

/-! ## Theorems: the participant audio pipeline (C3, C4, C9) -/

theorem processChunks_silence_step (sampleRate : ℚ) (now : ℤ) (env : ℕ → Bool)
    (h : ParticipantHandler) (c : List ℚ) (l : List (List ℚ)) (k : ℕ)
    (hc : detectVoiceActivityB c (1 / 1000) = false) :
    processChunks sampleRate now env h (c :: l) k
      = processChunks sampleRate now env h l k := by
  simp only [processChunks, hc]
  simp

theorem processChunks_skips_silence (sampleRate : ℚ) (now : ℤ) (env : ℕ → Bool) :
    ∀ (pre l : List (List ℚ)) (h : ParticipantHandler) (k : ℕ),
      (∀ s ∈ pre, detectVoiceActivityB s (1 / 1000) = false) →
      processChunks sampleRate now env h (pre ++ l) k
        = processChunks sampleRate now env h l k := by
  intro pre
  induction pre with
  | nil => intro l h k _; rw [List.nil_append]
  | cons c pre ih =>
    intro l h k hpre
    rw [List.cons_append,
      processChunks_silence_step sampleRate now env h c (pre ++ l) k
        (hpre c (List.mem_cons_self _ _))]
    exact ih l h k (fun s hs => hpre s (List.mem_cons_of_mem _ hs))

theorem processChunks_speech_step (sampleRate : ℚ) (now : ℤ) (env : ℕ → Bool)
    (h : ParticipantHandler) (c : List ℚ) (l : List (List ℚ)) (k : ℕ)
    (hconn : h.stream.isConnected = true)
    (hc : detectVoiceActivityB c (1 / 1000) = true) :
    processChunks sampleRate now env h (c :: l) k
      = processChunks sampleRate now env
          { h with
              stream := { h.stream with sent := h.stream.sent ++ [float32ToInt16 c] },
              speechDurationMs :=
                h.speechDurationMs + (c.length : ℚ) / sampleRate * 1000,
              lastSpeechAt := now }
          l k := by
  simp only [processChunks, hc, AssemblyAIStream.isActive, hconn,
    AssemblyAIStream.sendAudio]
  simp [hconn]

theorem processChunks_reconnect_fail (sampleRate : ℚ) (now : ℤ) (env : ℕ → Bool)
    (h : ParticipantHandler) (c : List ℚ) (l : List (List ℚ)) (k : ℕ)
    (hinact : h.stream.isConnected = false)
    (hc : detectVoiceActivityB c (1 / 1000) = true)
    (henv : env k = false) :
    processChunks sampleRate now env h (c :: l) k = (h, k + 1) := by
  simp only [processChunks, hc, AssemblyAIStream.isActive, hinact,
    AssemblyAIStream.connect, henv]
  simp

theorem processChunks_reconnect_success (sampleRate : ℚ) (now : ℤ) (env : ℕ → Bool)
    (h : ParticipantHandler) (c : List ℚ) (l : List (List ℚ)) (k : ℕ)
    (hinact : h.stream.isConnected = false)
    (hc : detectVoiceActivityB c (1 / 1000) = true)
    (henv : env k = true) :
    processChunks sampleRate now env h (c :: l) k
      = processChunks sampleRate now env
          { h with
              stream :=
                { h.stream with
                    isConnected := true,
                    sent := h.stream.sent ++ [float32ToInt16 c] },
              speechDurationMs :=
                h.speechDurationMs + (c.length : ℚ) / sampleRate * 1000,
              lastSpeechAt := now }
          l (k + 1) := by
  simp only [processChunks, hc, AssemblyAIStream.isActive, hinact,
    AssemblyAIStream.connect, henv, AssemblyAIStream.sendAudio]
  simp

theorem processChunks_connected_stays (sampleRate : ℚ) (now : ℤ) (env : ℕ → Bool) :
    ∀ (l : List (List ℚ)) (h : ParticipantHandler) (k : ℕ),
      h.stream.isConnected = true →
      (processChunks sampleRate now env h l k).2 = k
      ∧ (processChunks sampleRate now env h l k).1.stream.isConnected = true := by
  intro l
  induction l with
  | nil => intro h k hconn; exact ⟨rfl, hconn⟩
  | cons c l ih =>
    intro h k hconn
    by_cases hc : detectVoiceActivityB c (1 / 1000) = true
    · rw [processChunks_speech_step sampleRate now env h c l k hconn hc]
      exact ih _ k hconn
    · rw [processChunks_silence_step sampleRate now env h c l k
        (Bool.not_eq_true _ ▸ hc)]
      exact ih h k hconn

theorem processChunks_sent_extends (sampleRate : ℚ) (now : ℤ) (env : ℕ → Bool) :
    ∀ (l : List (List ℚ)) (h : ParticipantHandler) (k : ℕ),
      ∃ t, (processChunks sampleRate now env h l k).1.stream.sent
        = h.stream.sent ++ t := by
  intro l
  induction l with
  | nil => intro h k; exact ⟨[], by simp [processChunks]⟩
  | cons c l ih =>
    intro h k
    by_cases hc : detectVoiceActivityB c (1 / 1000) = true
    · by_cases hact : h.stream.isConnected = true
      · rw [processChunks_speech_step sampleRate now env h c l k hact hc]
        obtain ⟨t, ht⟩ := ih _ k
        exact ⟨float32ToInt16 c :: t, by rw [ht]; simp⟩
      · have hinact : h.stream.isConnected = false := Bool.not_eq_true _ ▸ hact
        cases henv : env k with
        | false =>
          rw [processChunks_reconnect_fail sampleRate now env h c l k hinact hc henv]
          exact ⟨[], by simp⟩
        | true =>
          rw [processChunks_reconnect_success sampleRate now env h c l k hinact hc henv]
          obtain ⟨t, ht⟩ := ih _ (k + 1)
          exact ⟨float32ToInt16 c :: t, by rw [ht]; simp⟩
    · rw [processChunks_silence_step sampleRate now env h c l k
        (Bool.not_eq_true _ ▸ hc)]
      exact ih h k

theorem processChunks_sent_take (sampleRate : ℚ) (now : ℤ) (env : ℕ → Bool)
    (l : List (List ℚ)) (h0 : ParticipantHandler) (k : ℕ)
    (hconn : h0.stream.isConnected = true) :
    (processChunks sampleRate now env h0 l k).2 = k
    ∧ (processChunks sampleRate now env h0 l k).1.stream.sent.take
        h0.stream.sent.length = h0.stream.sent := by
  obtain ⟨t, ht⟩ := processChunks_sent_extends sampleRate now env l h0 k
  exact ⟨(processChunks_connected_stays sampleRate now env l h0 k hconn).1,
    by rw [ht, List.take_left]⟩

theorem detect_to_B {c : List ℚ} {t : ℚ} (h : detectVoiceActivity c t) :
    detectVoiceActivityB c t = true :=
  (detectVoiceActivityB_iff c t).mpr h

theorem not_detect_to_B {c : List ℚ} {t : ℚ} (h : ¬ detectVoiceActivity c t) :
    detectVoiceActivityB c t = false := by
  rcases Bool.eq_false_or_eq_true (detectVoiceActivityB c t) with hB | hB
  · exact absurd ((detectVoiceActivityB_iff c t).mp hB) h
  · exact hB

theorem detectB_half : detectVoiceActivityB [1 / 2] (1 / 1000) = true := by
  rw [detectVoiceActivityB, if_neg (by norm_num), if_neg (by simp)]
  simp only [decide_eq_true_eq]
  norm_num [sumSquares]

theorem detectB_zero : detectVoiceActivityB [0] (1 / 1000) = false := by
  rw [detectVoiceActivityB, if_neg (by norm_num), if_neg (by simp)]
  simp only [decide_eq_false_iff_not]
  norm_num [sumSquares]

theorem detect_half : detectVoiceActivity [1 / 2] (1 / 1000) :=
  (detectVoiceActivityB_iff _ _).mp detectB_half

theorem not_detect_zero : ¬ detectVoiceActivity [0] (1 / 1000) := by
  intro hd
  have h := detect_to_B hd
  rw [detectB_zero] at h
  exact Bool.false_ne_true h

/-- C4: a handler with a connected adapter processing a frame that
completes exactly six chunks — chunks 1–3 and 6 classified as speech,
chunks 4–5 as silence — forwards exactly the four speech chunks to the
adapter (silence chunks are neither forwarded nor do they consume a
reconnect attempt: the attempt counter is unchanged), and its cumulative
speech duration grows by exactly `4 * (C / sampleRate * 1000)` ms, four
times the chunk wall-clock duration. -/
theorem processAudioFrame_speech_scenario
    (h : ParticipantHandler) (env : ℕ → Bool) (frame : List ℤ)
    (sampleRate : ℚ) (now : ℤ) (k : ℕ) (c1 c2 c3 c4 c5 c6 : List ℚ) (C : ℕ)
    (hconn : h.stream.isConnected = true)
    (hchunks : (h.audioBuffer.addSamples
        (frame.map (fun i : ℤ => (i : ℚ) / 32768))).1 = [c1, c2, c3, c4, c5, c6])
    (hl1 : c1.length = C) (hl2 : c2.length = C) (hl3 : c3.length = C)
    (hl6 : c6.length = C)
    (hs1 : detectVoiceActivity c1 (1 / 1000))
    (hs2 : detectVoiceActivity c2 (1 / 1000))
    (hs3 : detectVoiceActivity c3 (1 / 1000))
    (hn4 : ¬ detectVoiceActivity c4 (1 / 1000))
    (hn5 : ¬ detectVoiceActivity c5 (1 / 1000))
    (hs6 : detectVoiceActivity c6 (1 / 1000)) :
    (processAudioFrame env h frame sampleRate now k).1.stream.sent
        = h.stream.sent
            ++ [float32ToInt16 c1, float32ToInt16 c2, float32ToInt16 c3,
                float32ToInt16 c6]
    ∧ (processAudioFrame env h frame sampleRate now k).1.speechDurationMs
        = h.speechDurationMs + 4 * ((C : ℚ) / sampleRate * 1000)
    ∧ (processAudioFrame env h frame sampleRate now k).2 = k := by
  have hb1 := detect_to_B hs1
  have hb2 := detect_to_B hs2
  have hb3 := detect_to_B hs3
  have hb4 := not_detect_to_B hn4
  have hb5 := not_detect_to_B hn5
  have hb6 := detect_to_B hs6
  simp only [processAudioFrame]
  rw [hchunks]
  simp only [processChunks, AssemblyAIStream.isActive, AssemblyAIStream.sendAudio,
    hb1, hb2, hb3, hb4, hb5, hb6, hconn, if_true, Bool.false_eq_true, if_false]
  refine ⟨?_, ?_, trivial⟩
  · simp [List.append_assoc]
  · rw [hl1, hl2, hl3, hl6]
    ring

/-- Witness for C4: chunk size 1, frame
`[16384, 16384, 16384, 0, 0, 16384]` at 16 kHz: four chunks `[1/2]` are
speech, two chunks `[0]` are silence; the four speech chunks are forwarded
and the speech duration grows by `4 * (1/16000 * 1000)` ms. -/
theorem processAudioFrame_speech_scenario_witness :
    (processAudioFrame envNever connectedHandler [16384, 16384, 16384, 0, 0, 16384]
        16000 0 0).1.stream.sent
      = connectedHandler.stream.sent
          ++ [float32ToInt16 [1 / 2], float32ToInt16 [1 / 2], float32ToInt16 [1 / 2],
              float32ToInt16 [1 / 2]]
    ∧ (processAudioFrame envNever connectedHandler [16384, 16384, 16384, 0, 0, 16384]
        16000 0 0).1.speechDurationMs
      = connectedHandler.speechDurationMs + 4 * (((1 : ℕ) : ℚ) / 16000 * 1000)
    ∧ (processAudioFrame envNever connectedHandler [16384, 16384, 16384, 0, 0, 16384]
        16000 0 0).2 = 0 :=
  processAudioFrame_speech_scenario connectedHandler envNever
    [16384, 16384, 16384, 0, 0, 16384] 16000 0 0
    [1 / 2] [1 / 2] [1 / 2] [0] [0] [1 / 2] 1
    rfl
    (by norm_num [connectedHandler, AudioBuffer.new, AudioBuffer.addSamples,
      addSamplesLoop])
    rfl rfl rfl rfl
    detect_half detect_half detect_half not_detect_zero not_detect_zero detect_half

/-- C3 (amended): for a frame whose chunking yields (after any prefix of
silence chunks) a speech chunk while the adapter is inactive, exactly one
reconnect attempt is made; if that attempt fails the source `return`s:
that chunk **and the remaining chunks of the same `addSamples` result**
are dropped, the failure is not propagated (the frame handler returns
normally), the handler is not torn down (its stream, duration and
timestamp are unchanged; only the audio buffer advanced), and the next
frame's first speech chunk triggers a fresh reconnect attempt, which on
success forwards that chunk. -/
theorem processAudioFrame_reconnect_failure_contained :
    (∀ (h : ParticipantHandler) (env : ℕ → Bool) (frame : List ℤ)
        (sampleRate : ℚ) (now : ℤ) (k : ℕ) (pre : List (List ℚ)) (c : List ℚ)
        (rest : List (List ℚ)),
      h.stream.isConnected = false →
      (h.audioBuffer.addSamples (frame.map (fun i : ℤ => (i : ℚ) / 32768))).1
        = pre ++ c :: rest →
      (∀ s ∈ pre, ¬ detectVoiceActivity s (1 / 1000)) →
      detectVoiceActivity c (1 / 1000) →
      env k = false →
      processAudioFrame env h frame sampleRate now k
        = ({ h with audioBuffer :=
              (h.audioBuffer.addSamples
                (frame.map (fun i : ℤ => (i : ℚ) / 32768))).2 },
           k + 1))
    ∧ (∀ (h : ParticipantHandler) (env : ℕ → Bool) (frame : List ℤ)
        (sampleRate : ℚ) (now : ℤ) (k : ℕ) (pre : List (List ℚ)) (c : List ℚ)
        (rest : List (List ℚ)),
      h.stream.isConnected = false →
      (h.audioBuffer.addSamples (frame.map (fun i : ℤ => (i : ℚ) / 32768))).1
        = pre ++ c :: rest →
      (∀ s ∈ pre, ¬ detectVoiceActivity s (1 / 1000)) →
      detectVoiceActivity c (1 / 1000) →
      env k = true →
      (processAudioFrame env h frame sampleRate now k).2 = k + 1
      ∧ (processAudioFrame env h frame sampleRate now k).1.stream.sent.take
          (h.stream.sent ++ [float32ToInt16 c]).length
        = h.stream.sent ++ [float32ToInt16 c]) := by
  constructor
  · intro h env frame sampleRate now k pre c rest hinact hchunks hpre hc henv
    simp only [processAudioFrame]
    rw [hchunks]
    have hinact2 : ({ h with audioBuffer :=
        (h.audioBuffer.addSamples
          (frame.map (fun i : ℤ => (i : ℚ) / 32768))).2 } :
        ParticipantHandler).stream.isConnected = false := hinact
    rw [processChunks_skips_silence sampleRate now env pre (c :: rest) _ k
        (fun s hs => not_detect_to_B (hpre s hs)),
      processChunks_reconnect_fail sampleRate now env _ c rest k hinact2
        (detect_to_B hc) henv]
  · intro h env frame sampleRate now k pre c rest hinact hchunks hpre hc henv
    simp only [processAudioFrame]
    rw [hchunks]
    have hinact2 : ({ h with audioBuffer :=
        (h.audioBuffer.addSamples
          (frame.map (fun i : ℤ => (i : ℚ) / 32768))).2 } :
        ParticipantHandler).stream.isConnected = false := hinact
    rw [processChunks_skips_silence sampleRate now env pre (c :: rest) _ k
        (fun s hs => not_detect_to_B (hpre s hs)),
      processChunks_reconnect_success sampleRate now env _ c rest k hinact2
        (detect_to_B hc) henv]
    exact processChunks_sent_take sampleRate now env rest _ (k + 1) rfl

/-- Witness for C3 (amended): chunk size 1, single-chunk frames.  A frame
`[16384]` while inactive with a failing attempt leaves the handler intact
and consumes one attempt; with a succeeding attempt the chunk is
forwarded. -/
theorem processAudioFrame_reconnect_failure_contained_witness :
    processAudioFrame envNever idleHandler [16384] 16000 0 0
      = ({ idleHandler with audioBuffer :=
            (idleHandler.audioBuffer.addSamples
              (([16384] : List ℤ).map (fun i : ℤ => (i : ℚ) / 32768))).2 }, 1)
    ∧ ((processAudioFrame envSecondTry idleHandler [16384] 16000 0 1).2 = 2
      ∧ (processAudioFrame envSecondTry idleHandler [16384] 16000 0 1).1.stream.sent.take
          (idleHandler.stream.sent ++ [float32ToInt16 [1 / 2]]).length
        = idleHandler.stream.sent ++ [float32ToInt16 [1 / 2]]) :=
  ⟨processAudioFrame_reconnect_failure_contained.1 idleHandler envNever [16384]
      16000 0 0 [] [1 / 2] [] rfl
      (by norm_num [idleHandler, AudioBuffer.new, AudioBuffer.addSamples,
        addSamplesLoop])
      (fun s hs => absurd hs (List.not_mem_nil s))
      detect_half rfl,
   processAudioFrame_reconnect_failure_contained.2 idleHandler envSecondTry [16384]
      16000 0 1 [] [1 / 2] [] rfl
      (by norm_num [idleHandler, AudioBuffer.new, AudioBuffer.addSamples,
        addSamplesLoop])
      (fun s hs => absurd hs (List.not_mem_nil s))
      detect_half rfl⟩

/-- C3 counterexample: chunk size 1, frame `[16384, 16384]` producing two
speech chunks `[1/2], [1/2]` while the adapter is inactive.  The first
reconnect attempt fails and the second attempt would succeed
(`envSecondTry 1 = true`), yet the source `return`s out of the chunk loop:
nothing at all is forwarded and only one reconnect attempt is consumed —
the later speech chunk of the same `addSamples` result is **not**
processed and triggers no fresh reconnect attempt, contrary to the
claim. -/
theorem processAudioFrame_reconnect_counterexample :
    (processAudioFrame envSecondTry idleHandler [16384, 16384] 16000 0 0).1.stream.sent
        = []
    ∧ (processAudioFrame envSecondTry idleHandler [16384, 16384] 16000 0 0).2 = 1
    ∧ (idleHandler.audioBuffer.addSamples
        (([16384, 16384] : List ℤ).map (fun i : ℤ => (i : ℚ) / 32768))).1
        = [[1 / 2], [1 / 2]]
    ∧ detectVoiceActivity [1 / 2] (1 / 1000)
    ∧ envSecondTry 1 = true := by
  have hchunks : (idleHandler.audioBuffer.addSamples
      (([16384, 16384] : List ℤ).map (fun i : ℤ => (i : ℚ) / 32768))).1
      = [[1 / 2], [1 / 2]] := by
    norm_num [idleHandler, AudioBuffer.new, AudioBuffer.addSamples, addSamplesLoop]
  have hrun : processAudioFrame envSecondTry idleHandler [16384, 16384] 16000 0 0
      = ({ idleHandler with audioBuffer :=
            (idleHandler.audioBuffer.addSamples
              (([16384, 16384] : List ℤ).map (fun i : ℤ => (i : ℚ) / 32768))).2 },
         1) := by
    simp only [processAudioFrame]
    rw [show ((idleHandler.audioBuffer.addSamples
        (List.map (fun i : ℤ => (i : ℚ) / 32768) [16384, 16384])).1)
        = [1 / 2] :: [[1 / 2]] from hchunks]
    exact processChunks_reconnect_fail 16000 0 envSecondTry _ [1 / 2] [[1 / 2]] 0
      rfl detectB_half rfl
  refine ⟨?_, ?_, hchunks, detect_half, rfl⟩
  · rw [hrun]
    rfl
  · rw [hrun]


/-- C9 counterexample: when the adapter's `connect` fails during
participant setup, `handleParticipantJoined` completes normally with an
`ok` result and an unchanged bot state — the caller of the setup
operation receives no error result (the failure was absorbed inside the
setup routine), although `connect` itself did fail with an error. -/
theorem handleParticipantJoined_absorbs_counterexample :
    handleParticipantJoined (BotState.mk "room1" [] 0) "alice" (some "Alice") false
        = Except.ok (BotState.mk "room1" [] 0)
    ∧ (AssemblyAIStream.new "alice" "Alice").connect false = Except.error () :=
  ⟨rfl, rfl⟩

/-- C9 (amended): when the transcription adapter's `connect` fails during
initial setup of a participant handler, the failure is propagated as an
error result to the participant-setup routine (`connect`'s caller), which
absorbs it: it logs the error, registers no handler, and completes
normally — so no error result reaches the caller of the setup operation
and the process does not crash. -/
theorem handleParticipantJoined_connect_failure (bot : BotState)
    (pIdentity : String) (pName : Option String)
    (hid : pIdentity ≠ botIdentity) :
    (AssemblyAIStream.new pIdentity (pName.getD pIdentity)).connect false
        = Except.error ()
    ∧ handleParticipantJoined bot pIdentity pName false = Except.ok bot := by
  refine ⟨rfl, ?_⟩
  rw [handleParticipantJoined, if_neg hid]
  rfl

/-- Witness for C9 (amended) at a concrete non-bot participant. -/
theorem handleParticipantJoined_connect_failure_witness :
    (AssemblyAIStream.new "bob" ((some "Bob").getD "bob")).connect false
        = Except.error ()
    ∧ handleParticipantJoined (BotState.mk "room2" [] 0) "bob" (some "Bob") false
        = Except.ok (BotState.mk "room2" [] 0) :=
  handleParticipantJoined_connect_failure (BotState.mk "room2" [] 0) "bob"
    (some "Bob") (by decide)

/-! ## Theorems: the room session registry (C2, C7, C8) -/

theorem startRoomStep_start_seen (roomId : String) (env : StartEnv)
    (g : RoomManagerState)
    (h : (g.activeRooms.lookup roomId).isSome = true ∨ roomId ∈ g.joiningRooms) :
    startRoomStep roomId env g .start = (g, .done true) := by
  simp only [startRoomStep]
  rcases h with h | h
  · rw [if_pos h]
  · by_cases h2 : (g.activeRooms.lookup roomId).isSome = true
    · rw [if_pos h2]
    · rw [if_neg h2, if_pos h]

theorem startRoomStep_start_unseen (roomId : String) (env : StartEnv)
    (g : RoomManagerState) (ha : g.activeRooms.lookup roomId = none)
    (hj : roomId ∉ g.joiningRooms) :
    startRoomStep roomId env g .start
      = ({ g with
            joiningRooms := roomId :: g.joiningRooms,
            settingsFetches := g.settingsFetches + 1 }, .awaitSettings) := by
  simp only [startRoomStep, ha, Option.isSome_none, Bool.false_eq_true, if_false]
  rw [if_neg hj]

theorem startRoomStep_settings_none (roomId : String) (env : StartEnv)
    (hset : env.settings = none) (g : RoomManagerState) :
    startRoomStep roomId env g .awaitSettings
      = ({ g with joiningRooms := g.joiningRooms.erase roomId }, .done false) := by
  simp only [startRoomStep, hset]

theorem startRoomStep_settings_off (roomId : String) (env : StartEnv)
    (st : RoomSettings) (hset : env.settings = some st)
    (hoff : st.transcriptionMode = TranscriptionMode.off) (g : RoomManagerState) :
    startRoomStep roomId env g .awaitSettings
      = ({ g with joiningRooms := g.joiningRooms.erase roomId }, .done false) := by
  simp only [startRoomStep, hset]
  rw [if_pos hoff]

theorem startRoomStep_settings_on (roomId : String) (env : StartEnv)
    (st : RoomSettings) (hset : env.settings = some st)
    (hoff : st.transcriptionMode ≠ TranscriptionMode.off) (g : RoomManagerState) :
    startRoomStep roomId env g .awaitSettings
      = ({ g with sessionsCreated :=
             g.sessionsCreated + (if env.createdSessionId.isSome then 1 else 0) },
         .awaitCreate
           (if st.transcriptionMode = TranscriptionMode.postCall
            then SessionMode.postCall else SessionMode.live)
           st.skillsKitSessionId) := by
  simp only [startRoomStep, hset]
  rw [if_neg hoff]

theorem startRoomStep_create_none (roomId : String) (env : StartEnv)
    (hcreate : env.createdSessionId = none) (mode : SessionMode)
    (sk : Option String) (g : RoomManagerState) :
    startRoomStep roomId env g (.awaitCreate mode sk)
      = ({ g with joiningRooms := g.joiningRooms.erase roomId }, .done false) := by
  simp only [startRoomStep, hcreate]

theorem startRoomStep_create_some (roomId : String) (env : StartEnv)
    (sid : String) (hcreate : env.createdSessionId = some sid)
    (mode : SessionMode) (sk : Option String) (g : RoomManagerState) :
    startRoomStep roomId env g (.awaitCreate mode sk)
      = ({ g with
            botsConstructed := g.botsConstructed + 1,
            botJoins := g.botJoins + (if env.joinSucceeds then 1 else 0) },
         .awaitJoin mode sk sid) := by
  simp only [startRoomStep, hcreate]

theorem startRoomStep_join_true (roomId : String) (env : StartEnv)
    (hjoin : env.joinSucceeds = true) (mode : SessionMode) (sk : Option String)
    (sid : String) (g : RoomManagerState) :
    startRoomStep roomId env g (.awaitJoin mode sk sid)
      = ({ g with
            activeRooms :=
              (roomId, { roomId := roomId, sessionId := sid, mode := mode,
                         skillsKitSessionId := sk }) :: g.activeRooms,
            joiningRooms := g.joiningRooms.erase roomId },
         .done true) := by
  simp only [startRoomStep]
  rw [if_pos hjoin]

theorem startRoomStep_join_false (roomId : String) (env : StartEnv)
    (hjoin : env.joinSucceeds = false) (mode : SessionMode) (sk : Option String)
    (sid : String) (g : RoomManagerState) :
    startRoomStep roomId env g (.awaitJoin mode sk sid)
      = ({ g with
            joiningRooms := g.joiningRooms.erase roomId,
            botLeaves := g.botLeaves + 1 },
         .done false) := by
  simp only [startRoomStep]
  rw [if_neg (by rw [hjoin]; exact Bool.false_ne_true)]

theorem startRoomStep_done (roomId : String) (env : StartEnv)
    (g : RoomManagerState) (b : Bool) :
    startRoomStep roomId env g (.done b) = (g, .done b) := rfl

/-- C7: when the external settings report transcription mode `off`,
`startRoom` returns `false` and leaves all registry state unchanged apart
from the recorded settings fetch: no accounting session created, no bot
constructed or joined, no active entry added, and the joining mark
cleared.  More generally, whenever `startRoom` reports failure, the active
map and the joining set end exactly as they began — no partial session
remains registered. -/
theorem startRoom_off_and_failure_clean :
    (∀ (roomId : String) (env : StartEnv) (g0 : RoomManagerState)
        (st : RoomSettings),
      g0.activeRooms.lookup roomId = none → roomId ∉ g0.joiningRooms →
      env.settings = some st → st.transcriptionMode = TranscriptionMode.off →
      startRoomRun roomId env g0
        = ({ g0 with settingsFetches := g0.settingsFetches + 1 }, false))
    ∧ (∀ (roomId : String) (env : StartEnv) (g0 : RoomManagerState),
      (startRoomRun roomId env g0).2 = false →
      (startRoomRun roomId env g0).1.activeRooms = g0.activeRooms
      ∧ (startRoomRun roomId env g0).1.joiningRooms = g0.joiningRooms) := by
  constructor
  · intro roomId env g0 st ha hj hset hoff
    simp only [startRoomRun, startRoomStep_start_unseen roomId env g0 ha hj]
    simp only [startRoomStep_settings_off roomId env st hset hoff,
      startRoomStep_done, List.erase_cons_head]
  · intro roomId env g0 hres
    by_cases ha : (g0.activeRooms.lookup roomId).isSome = true
    · have hrun : startRoomRun roomId env g0 = (g0, true) := by
        simp only [startRoomRun, startRoomStep_start_seen roomId env g0 (Or.inl ha),
          startRoomStep_done]
      rw [hrun] at hres
      simp at hres
    · have ha2 : g0.activeRooms.lookup roomId = none :=
        Option.not_isSome_iff_eq_none.mp (by simpa using ha)
      by_cases hj : roomId ∈ g0.joiningRooms
      · have hrun : startRoomRun roomId env g0 = (g0, true) := by
          simp only [startRoomRun, startRoomStep_start_seen roomId env g0 (Or.inr hj),
            startRoomStep_done]
        rw [hrun] at hres
        simp at hres
      · cases hset : env.settings with
        | none =>
          have hrun : startRoomRun roomId env g0
              = ({ g0 with settingsFetches := g0.settingsFetches + 1 }, false) := by
            simp only [startRoomRun, startRoomStep_start_unseen roomId env g0 ha2 hj]
            simp only [startRoomStep_settings_none roomId env hset,
              startRoomStep_done, List.erase_cons_head]
          rw [hrun]
          exact ⟨rfl, rfl⟩
        | some st =>
          by_cases hoff : st.transcriptionMode = TranscriptionMode.off
          · have hrun : startRoomRun roomId env g0
                = ({ g0 with settingsFetches := g0.settingsFetches + 1 }, false) := by
              simp only [startRoomRun, startRoomStep_start_unseen roomId env g0 ha2 hj]
              simp only [startRoomStep_settings_off roomId env st hset hoff,
                startRoomStep_done, List.erase_cons_head]
            rw [hrun]
            exact ⟨rfl, rfl⟩
          · cases hcreate : env.createdSessionId with
            | none =>
              have hrun : startRoomRun roomId env g0
                  = ({ g0 with settingsFetches := g0.settingsFetches + 1 }, false) := by
                simp only [startRoomRun,
                  startRoomStep_start_unseen roomId env g0 ha2 hj]
                simp only [startRoomStep_settings_on roomId env st hset hoff,
                  hcreate]
                simp only [startRoomStep_create_none roomId env hcreate,
                  startRoomStep_done, List.erase_cons_head, Option.isSome_none,
                  Bool.false_eq_true, if_false, Nat.add_zero]
              rw [hrun]
              exact ⟨rfl, rfl⟩
            | some sid =>
              cases hjoin : env.joinSucceeds with
              | true =>
                have hrun : (startRoomRun roomId env g0).2 = true := by
                  simp only [startRoomRun,
                    startRoomStep_start_unseen roomId env g0 ha2 hj]
                  simp only [startRoomStep_settings_on roomId env st hset hoff]
                  simp only [startRoomStep_create_some roomId env sid hcreate]
                  simp only [startRoomStep_join_true roomId env hjoin,
                    startRoomStep_done]
                rw [hrun] at hres
                simp at hres
              | false =>
                have hrun : startRoomRun roomId env g0
                    = ({ g0 with
                          settingsFetches := g0.settingsFetches + 1,
                          sessionsCreated := g0.sessionsCreated + 1,
                          botsConstructed := g0.botsConstructed + 1,
                          botLeaves := g0.botLeaves + 1 }, false) := by
                  simp only [startRoomRun,
                    startRoomStep_start_unseen roomId env g0 ha2 hj]
                  simp only [startRoomStep_settings_on roomId env st hset hoff,
                    hcreate]
                  simp only [startRoomStep_create_some roomId env sid hcreate]
                  simp only [startRoomStep_join_false roomId env hjoin,
                    startRoomStep_done, List.erase_cons_head, Option.isSome_some,
                    if_true, hjoin, Bool.false_eq_true, if_false, Nat.add_zero]
                rw [hrun]
                exact ⟨rfl, rfl⟩

/-- Witness for C7: an `off` environment on an empty registry. -/
theorem startRoom_off_and_failure_clean_witness :
    startRoomRun "r1" offEnv emptyRegistry
      = ({ emptyRegistry with
            settingsFetches := emptyRegistry.settingsFetches + 1 }, false)
    ∧ ((startRoomRun "r1" offEnv emptyRegistry).1.activeRooms
          = emptyRegistry.activeRooms
      ∧ (startRoomRun "r1" offEnv emptyRegistry).1.joiningRooms
          = emptyRegistry.joiningRooms) :=
  ⟨startRoom_off_and_failure_clean.1 "r1" offEnv emptyRegistry
      { transcriptionMode := TranscriptionMode.off, hostId := "host",
        skillsKitSessionId := none } rfl (by simp [emptyRegistry]) rfl rfl,
   startRoom_off_and_failure_clean.2 "r1" offEnv emptyRegistry
     (by
       rw [startRoom_off_and_failure_clean.1 "r1" offEnv emptyRegistry
          { transcriptionMode := TranscriptionMode.off, hostId := "host",
            skillsKitSessionId := none } rfl (by simp [emptyRegistry]) rfl rfl])⟩

theorem startRoomStep_active_or (roomId : String) (env : StartEnv)
    (g : RoomManagerState) (p : StartPhase) :
    (startRoomStep roomId env g p).1.activeRooms = g.activeRooms
    ∨ (startRoomStep roomId env g p).2 = .done true := by
  cases p with
  | start =>
    by_cases h1 : (g.activeRooms.lookup roomId).isSome = true
    · right
      rw [startRoomStep_start_seen roomId env g (Or.inl h1)]
    · by_cases h2 : roomId ∈ g.joiningRooms
      · right
        rw [startRoomStep_start_seen roomId env g (Or.inr h2)]
      · left
        have ha : g.activeRooms.lookup roomId = none :=
          Option.not_isSome_iff_eq_none.mp (by simpa using h1)
        rw [startRoomStep_start_unseen roomId env g ha h2]
  | awaitSettings =>
    left
    cases hset : env.settings with
    | none => rw [startRoomStep_settings_none roomId env hset]
    | some st =>
      by_cases hoff : st.transcriptionMode = TranscriptionMode.off
      · rw [startRoomStep_settings_off roomId env st hset hoff]
      · rw [startRoomStep_settings_on roomId env st hset hoff]
  | awaitCreate mode sk =>
    left
    cases hcreate : env.createdSessionId with
    | none => rw [startRoomStep_create_none roomId env hcreate]
    | some sid => rw [startRoomStep_create_some roomId env sid hcreate]
  | awaitJoin mode sk sid =>
    cases hjoin : env.joinSucceeds with
    | true =>
      right
      rw [startRoomStep_join_true roomId env hjoin]
    | false =>
      left
      rw [startRoomStep_join_false roomId env hjoin]
  | done b => left; rfl

theorem stepUntilDone_fixes_done (roomId : String) (env : StartEnv) :
    ∀ (n : ℕ) (g : RoomManagerState) (b : Bool),
      stepUntilDone roomId env n g (.done b) = (g, .done b) := by
  intro n
  induction n with
  | zero => intro g b; rfl
  | succ n ih =>
    intro g b
    simp only [stepUntilDone, startRoomStep_done]
    exact ih g b

theorem stepUntilDone_active_unchanged (roomId : String) (env : StartEnv) :
    ∀ (n : ℕ) (g : RoomManagerState) (p : StartPhase),
      (stepUntilDone roomId env n g p).2 ≠ .done true →
      (stepUntilDone roomId env n g p).1.activeRooms = g.activeRooms := by
  intro n
  induction n with
  | zero => intro g p _; rfl
  | succ n ih =>
    intro g p h
    simp only [stepUntilDone] at h ⊢
    rcases startRoomStep_active_or roomId env g p with hOr | hOr
    · rw [ih _ _ h, hOr]
    · exfalso
      apply h
      rw [hOr, stepUntilDone_fixes_done]

/-- C8: a bot `disconnected` notification for a room with no entry in the
active-session map — in particular a room that is still joining, since no
point of `startRoom` before the final registration adds the entry — never
triggers `stopRoom`: the registry is untouched and no leave, accounting
completion or removal occurs.  A disconnect for a registered room does
trigger `stopRoom`, which performs exactly one `bot.leave()`, one
accounting completion, and removes the entry. -/
theorem disconnect_while_joining_ignored :
    (∀ (roomId : String) (g : RoomManagerState),
        g.activeRooms.lookup roomId = none →
        onBotDisconnected roomId g = (g, false))
    ∧ (∀ (roomId : String) (env : StartEnv) (g0 : RoomManagerState) (n : ℕ),
        g0.activeRooms.lookup roomId = none →
        (stepUntilDone roomId env n g0 .start).2 ≠ .done true →
        onBotDisconnected roomId (stepUntilDone roomId env n g0 .start).1
          = ((stepUntilDone roomId env n g0 .start).1, false))
    ∧ (∀ (roomId : String) (g : RoomManagerState),
        (g.activeRooms.lookup roomId).isSome = true →
        roomId ∉ g.stoppingRooms →
        onBotDisconnected roomId g = (stopRoomRun roomId g, true)
        ∧ (stopRoomRun roomId g).botLeaves = g.botLeaves + 1
        ∧ (stopRoomRun roomId g).sessionsCompleted = g.sessionsCompleted + 1
        ∧ (stopRoomRun roomId g).activeRooms
            = g.activeRooms.eraseP (fun q => q.1 == roomId)) := by
  refine ⟨?_, ?_, ?_⟩
  · intro roomId g ha
    simp only [onBotDisconnected, ha, Option.isSome_none, Bool.false_eq_true,
      if_false]
  · intro roomId env g0 n ha hnd
    have hactive := stepUntilDone_active_unchanged roomId env n g0 .start hnd
    simp only [onBotDisconnected, hactive, ha, Option.isSome_none,
      Bool.false_eq_true, if_false]
  · intro roomId g hsome hstop
    obtain ⟨ar, har⟩ := Option.isSome_iff_exists.mp hsome
    have hstopr : stopRoomRun roomId g
        = { g with
              activeRooms := g.activeRooms.eraseP (fun q => q.1 == roomId),
              botLeaves := g.botLeaves + 1,
              sessionsCompleted := g.sessionsCompleted + 1 } := by
      simp only [stopRoomRun, har]
      rw [if_neg hstop]
    refine ⟨?_, ?_, ?_, ?_⟩
    · simp only [onBotDisconnected, hsome, if_true]
    · rw [hstopr]
    · rw [hstopr]
    · rw [hstopr]

/-- Witness for C8: the empty registry ignores a disconnect; so does the
state reached after one `startRoom` segment (the room is then `joining`);
a registered room is cleaned up. -/
theorem disconnect_while_joining_ignored_witness :
    onBotDisconnected "r1" emptyRegistry = (emptyRegistry, false)
    ∧ onBotDisconnected "r1" (stepUntilDone "r1" happyEnv 1 emptyRegistry .start).1
        = ((stepUntilDone "r1" happyEnv 1 emptyRegistry .start).1, false)
    ∧ (onBotDisconnected "r1" activeRegistry
          = (stopRoomRun "r1" activeRegistry, true)
      ∧ (stopRoomRun "r1" activeRegistry).botLeaves
          = activeRegistry.botLeaves + 1
      ∧ (stopRoomRun "r1" activeRegistry).sessionsCompleted
          = activeRegistry.sessionsCompleted + 1
      ∧ (stopRoomRun "r1" activeRegistry).activeRooms
          = activeRegistry.activeRooms.eraseP (fun q => q.1 == "r1")) :=
  ⟨disconnect_while_joining_ignored.1 "r1" emptyRegistry rfl,
   disconnect_while_joining_ignored.2.1 "r1" happyEnv emptyRegistry 1 rfl
     (by decide),
   disconnect_while_joining_ignored.2.2 "r1" activeRegistry rfl
     (by simp [activeRegistry])⟩

theorem ownerMid_step (roomId : String) (env : StartEnv)
    (g0 g : RoomManagerState) (p : StartPhase) (hgood : goodEnv env)
    (hmid : ownerMid roomId g0 g p) :
    ownerMid roomId g0 (startRoomStep roomId env g p).1
        (startRoomStep roomId env g p).2
    ∨ ownerDone roomId g0 (startRoomStep roomId env g p).1
        (startRoomStep roomId env g p).2 := by
  obtain ⟨⟨st, hset, hoff⟩, hcreate, hjoin⟩ := hgood
  obtain ⟨hmidp, hact, hjoining, hsess, hjoins⟩ := hmid
  cases p with
  | start => simp [StartPhase.isMid] at hmidp
  | done b => simp [StartPhase.isMid] at hmidp
  | awaitSettings =>
    left
    rw [startRoomStep_settings_on roomId env st hset hoff]
    refine ⟨rfl, hact, hjoining, ?_, ?_⟩
    · simp only [StartPhase.sessDelta] at hsess ⊢
      simp only [hcreate, if_true, hsess]
    · simp only [StartPhase.joinDelta] at hjoins ⊢
      exact hjoins
  | awaitCreate mode sk =>
    left
    obtain ⟨sid, hsid⟩ := Option.isSome_iff_exists.mp hcreate
    rw [startRoomStep_create_some roomId env sid hsid]
    refine ⟨rfl, hact, hjoining, ?_, ?_⟩
    · simp only [StartPhase.sessDelta] at hsess ⊢
      exact hsess
    · simp only [StartPhase.joinDelta] at hjoins ⊢
      simp only [hjoin, if_true, hjoins]
  | awaitJoin mode sk sid =>
    right
    rw [startRoomStep_join_true roomId env hjoin]
    refine ⟨rfl, ?_, ?_, ?_⟩
    · simp [List.lookup]
    · simp only [StartPhase.sessDelta] at hsess
      exact hsess
    · simp only [StartPhase.joinDelta] at hjoins
      exact hjoins

theorem bystander_step (roomId : String) (env : StartEnv)
    (g : RoomManagerState) (p : StartPhase) (hby : bystander p)
    (hseen : (g.activeRooms.lookup roomId).isSome = true ∨ roomId ∈ g.joiningRooms) :
    (startRoomStep roomId env g p).1 = g
    ∧ bystander (startRoomStep roomId env g p).2 := by
  rcases hby with rfl | rfl
  · rw [startRoomStep_start_seen roomId env g hseen]
    exact ⟨rfl, Or.inr rfl⟩
  · rw [startRoomStep_done]
    exact ⟨rfl, Or.inr rfl⟩

theorem twoStartInv_swap (roomId : String) (g0 g : RoomManagerState)
    (p q : StartPhase) :
    twoStartInv roomId g0 g p q ↔ twoStartInv roomId g0 g q p := by
  unfold twoStartInv
  tauto

theorem twoStartInv_step (roomId : String) (env : StartEnv)
    (g0 g : RoomManagerState) (p q : StartPhase) (hgood : goodEnv env)
    (ha : g0.activeRooms.lookup roomId = none) (hj : roomId ∉ g0.joiningRooms)
    (hinv : twoStartInv roomId g0 g p q) :
    twoStartInv roomId g0 (startRoomStep roomId env g p).1
      (startRoomStep roomId env g p).2 q := by
  rcases hinv with ⟨hp, hq, hg⟩ | ⟨hmid, hby⟩ | ⟨hmid, hby⟩ | ⟨hdone, hby⟩ | ⟨hdone, hby⟩
  · subst hp
    subst hg
    rw [startRoomStep_start_unseen roomId env g ha hj]
    refine Or.inr (Or.inl ⟨⟨rfl, rfl, List.mem_cons_self _ _, ?_, ?_⟩, ?_⟩)
    · simp [StartPhase.sessDelta]
    · simp [StartPhase.joinDelta]
    · rw [hq]; exact Or.inl rfl
  · rcases ownerMid_step roomId env g0 g p hgood hmid with h2 | h2
    · exact Or.inr (Or.inl ⟨h2, hby⟩)
    · exact Or.inr (Or.inr (Or.inr (Or.inl ⟨h2, hby⟩)))
  · obtain ⟨h1eq, hby2⟩ :=
      bystander_step roomId env g p hby (Or.inr hmid.2.2.1)
    refine Or.inr (Or.inr (Or.inl ⟨?_, hby2⟩))
    rw [h1eq]
    exact hmid
  · obtain ⟨hp, hrest⟩ := hdone
    subst hp
    rw [startRoomStep_done]
    exact Or.inr (Or.inr (Or.inr (Or.inl ⟨⟨rfl, hrest⟩, hby⟩)))
  · obtain ⟨h1eq, hby2⟩ :=
      bystander_step roomId env g p hby (Or.inl hdone.2.1)
    refine Or.inr (Or.inr (Or.inr (Or.inr ⟨?_, hby2⟩)))
    rw [h1eq]
    exact hdone

theorem runTwoStarts_inv (roomId : String) (env1 env2 : StartEnv)
    (g0 : RoomManagerState) (h1 : goodEnv env1) (h2 : goodEnv env2)
    (ha : g0.activeRooms.lookup roomId = none) (hj : roomId ∉ g0.joiningRooms) :
    ∀ (sch : List Bool) (g : RoomManagerState) (p1 p2 : StartPhase),
      twoStartInv roomId g0 g p1 p2 →
      twoStartInv roomId g0 (runTwoStarts roomId env1 env2 sch g p1 p2).1
        (runTwoStarts roomId env1 env2 sch g p1 p2).2.1
        (runTwoStarts roomId env1 env2 sch g p1 p2).2.2 := by
  intro sch
  induction sch with
  | nil => intro g p1 p2 hinv; exact hinv
  | cons b sch ih =>
    intro g p1 p2 hinv
    cases b with
    | true =>
      simp only [runTwoStarts]
      exact ih _ _ _ (twoStartInv_step roomId env1 g0 g p1 p2 h1 ha hj hinv)
    | false =>
      simp only [runTwoStarts]
      apply ih
      rw [twoStartInv_swap]
      exact twoStartInv_step roomId env2 g0 g p2 p1 h2 ha hj
        ((twoStartInv_swap roomId g0 g p1 p2).mp hinv)

theorem twoStartInv_final (roomId : String) (g0 g : RoomManagerState)
    (p1 p2 : StartPhase) (hinv : twoStartInv roomId g0 g p1 p2)
    (h1 : p1.isDone = true) (h2 : p2.isDone = true) :
    g.sessionsCreated = g0.sessionsCreated + 1 ∧ g.botJoins = g0.botJoins + 1 := by
  rcases hinv with ⟨hp1, _, _⟩ | ⟨⟨hm, _⟩, _⟩ | ⟨⟨hm, _⟩, _⟩
      | ⟨⟨_, _, hs, hj⟩, _⟩ | ⟨⟨_, _, hs, hj⟩, _⟩
  · rw [hp1] at h1
    simp [StartPhase.isDone] at h1
  · cases p1 <;> simp_all [StartPhase.isMid, StartPhase.isDone]
  · cases p2 <;> simp_all [StartPhase.isMid, StartPhase.isDone]
  · exact ⟨hs, hj⟩
  · exact ⟨hs, hj⟩

/-- C2: if a session for a room id is already registered or the id is
marked as mid-creation (joining), `startRoom` returns `true` in its first
atomic segment with the registry completely unchanged — so no settings
fetch, no accounting record, no bot construction.  Consequently, two
`startRoom` invocations for the same previously unseen room id, whatever
the interleaving of their atomic segments (all `await` boundaries), create
exactly one external accounting session and cause exactly one Room Bot
join once both have returned. -/
theorem startRoom_idempotent_single_session :
    (∀ (roomId : String) (env : StartEnv) (g : RoomManagerState),
        (g.activeRooms.lookup roomId).isSome = true ∨ roomId ∈ g.joiningRooms →
        startRoomStep roomId env g .start = (g, .done true))
    ∧ (∀ (roomId : String) (env1 env2 : StartEnv) (g0 : RoomManagerState)
        (sch : List Bool),
        goodEnv env1 → goodEnv env2 →
        g0.activeRooms.lookup roomId = none → roomId ∉ g0.joiningRooms →
        (runTwoStarts roomId env1 env2 sch g0 .start .start).2.1.isDone = true →
        (runTwoStarts roomId env1 env2 sch g0 .start .start).2.2.isDone = true →
        (runTwoStarts roomId env1 env2 sch g0 .start .start).1.sessionsCreated
            = g0.sessionsCreated + 1
        ∧ (runTwoStarts roomId env1 env2 sch g0 .start .start).1.botJoins
            = g0.botJoins + 1) := by
  constructor
  · exact fun roomId env g h => startRoomStep_start_seen roomId env g h
  · intro roomId env1 env2 g0 sch hg1 hg2 ha hj hd1 hd2
    have hinv0 : twoStartInv roomId g0 g0 .start .start := Or.inl ⟨rfl, rfl, rfl⟩
    have hinv := runTwoStarts_inv roomId env1 env2 g0 hg1 hg2 ha hj sch g0
      .start .start hinv0
    exact twoStartInv_final roomId g0 _ _ _ hinv hd1 hd2

/-- Witness for C2: a registry already joining `"r1"` is returned
unchanged; two interleaved successful invocations on the empty registry
(schedule `[1, 2, 1, 1, 1, 2]`) create exactly one accounting session and
one bot join. -/
theorem startRoom_idempotent_single_session_witness :
    startRoomStep "r1" happyEnv
        { emptyRegistry with joiningRooms := ["r1"] } .start
      = ({ emptyRegistry with joiningRooms := ["r1"] }, .done true)
    ∧ ((runTwoStarts "r1" happyEnv happyEnv [true, false, true, true, true, false]
          emptyRegistry .start .start).1.sessionsCreated
        = emptyRegistry.sessionsCreated + 1
      ∧ (runTwoStarts "r1" happyEnv happyEnv [true, false, true, true, true, false]
          emptyRegistry .start .start).1.botJoins
        = emptyRegistry.botJoins + 1) :=
  ⟨startRoom_idempotent_single_session.1 "r1" happyEnv
      { emptyRegistry with joiningRooms := ["r1"] } (Or.inr (by decide)),
   startRoom_idempotent_single_session.2 "r1" happyEnv happyEnv emptyRegistry
      [true, false, true, true, true, false]
      ⟨⟨_, rfl, by decide⟩, rfl, rfl⟩ ⟨⟨_, rfl, by decide⟩, rfl, rfl⟩
      rfl (by decide) (by decide) (by decide)⟩

end MeetingBurner
